import Mathlib

set_option maxRecDepth 16000

/-!
Shallow embedding of the dravi terminal drawing editor (`src/main.rs`).

Conventions of the embedding:

* `f64` state (cursor, origin) is modelled over `ℚ`.  All operations the
  program performs on these values (addition, negation, `round`, `max`,
  `min`, `clamp`, casts to `usize`/`i32`) are exact on `f64` except for
  rounding of addition results, which no claim depends on; the clamping
  and rounding structure is preserved faithfully.
* Transcendental float operations (`cos`, `sin`, `atan2`, `to_radians`,
  `to_degrees`, `sqrt`) and `str::parse::<f64>` have no exact rational
  counterpart; they are abstracted into a record `FOps` of oracle
  functions.  Theorems about clamping and structure hold for every
  oracle; witnesses and counterexamples instantiate the oracles with
  exact rational models (`ratSqrt`, `ratParseF64`) at inputs where the
  true `f64` functions are exact.
* `usize` is `ℕ`, `i32` is `ℤ` (the `i32` saturation bound of the
  `as` cast is unreachable: all cast values are clamped into `[0, 199]`
  first).
* The canvas `Vec<Vec<Option<DrawChar>>>` is modelled as a total
  function `ℕ → ℕ → Option DrawChar` (row, column); every write in the
  program is bounds-checked before indexing, which the model mirrors.
* File/terminal/process I/O (`File::create`, `writeln!`, `open_pdf`,
  `compile_to_pdf`) has no effect on editor state; `save_typst` is
  modelled by the list of text lines it would write in mixed mode.
-/

/-! ## Glyph / cell model (`enum DrawChar`) -/

inductive DrawChar where
  | Point
  | Horizontal
  | Vertical
  | Cross
  | DiagRight
  | DiagLeft
  | Text (ch : Char)
  deriving DecidableEq, Repr

/-- Model of `enum AppMode` from the source. -/
inductive AppMode where
  | Drawing
  | Selection
  | ColorSelection
  | CoordinateInput
  | TypstInput
  | Settings
  | PdfRender
  deriving DecidableEq, Repr

/-- Model of `enum CoordinateSystem` from the source. -/
inductive CoordinateSystem where
  | Cartesian
  | Polar
  | Cylindrical
  deriving DecidableEq, Repr

/-- The subset of `crossterm::KeyCode` the program inspects; every other
key code falls into the wildcard arm of each handler, modelled by
`other`. -/
inductive Key where
  | char (c : Char)
  | enter
  | esc
  | backspace
  | other
  deriving DecidableEq, Repr

/-- Model of `ratatui` colors: the program only ever stores `Color::Rgb` values
into `current_color` (initially hot pink, later parsed hex triples), so
the model carries just the RGB payload. -/
structure RgbColor where
  r : ℕ
  g : ℕ
  b : ℕ
  deriving DecidableEq, Repr

/-- The canvas grid, indexed `[row][col]` like `self.canvas[y][x]`.
All writes in the source are bounds-checked (`y < virtual_height`,
`x < canvas_width`) before indexing, so a total function loses no
information. -/
def Canvas : Type := ℕ → ℕ → Option DrawChar

/-- One cell write, `self.canvas[y][x] = v`. -/
def canvasSet (c : Canvas) (y x : ℕ) (v : Option DrawChar) : Canvas :=
  fun y' x' => if y' = y ∧ x' = x then v else c y' x'

/-- Model of `canvas_width` (fixed to 80 in `App::new`, never mutated). -/
def canvas_width : ℕ := 80

/-- Model of `canvas_height` (fixed to 40 in `App::new`, never mutated). -/
def canvas_height : ℕ := 40

/-- Model of `virtual_height` (fixed to 200 in `App::new`, never mutated). -/
def virtual_height : ℕ := 200

/-! ## Numeric helpers for the `f64` model -/

/-- Model of `f64::round` (rounds half away from zero), on the rational model. -/
def f64round (q : ℚ) : ℚ :=
  if 0 ≤ q then (⌊q + 1/2⌋ : ℤ) else (⌈q - 1/2⌉ : ℤ)

/-- Model of `f64 as usize`: truncation toward zero, saturating at 0 for
negative inputs (all program inputs are already clamped to
`[0, 199]`, so the upper saturation bound is immaterial). -/
def usizeOfF64 (q : ℚ) : ℕ := (⌊q⌋).toNat

/-- Model of `f64 as i32`: truncation toward zero (the `i32` range saturation is
unreachable: every value cast in the program is clamped into
`[0, 199]` first). -/
def i32OfF64 (q : ℚ) : ℤ :=
  if 0 ≤ q then ⌊q⌋ else ⌈q⌉

/-- Model of `f64::min` on the rational model (kernel-reducible `if` form). -/
def minQ (a b : ℚ) : ℚ := if a ≤ b then a else b

/-- Model of `f64::max` on the rational model (kernel-reducible `if` form). -/
def maxQ (a b : ℚ) : ℚ := if b ≤ a then a else b

lemma minQ_eq (a b : ℚ) : minQ a b = min a b := by
  unfold minQ
  rcases le_total a b with h | h
  · rw [if_pos h, min_eq_left h]
  · rcases eq_or_lt_of_le h with rfl | h2
    · simp
    · rw [if_neg (not_le.mpr h2), min_eq_right h]

lemma maxQ_eq (a b : ℚ) : maxQ a b = max a b := by
  unfold maxQ
  rcases le_total b a with h | h
  · rw [if_pos h, max_eq_left h]
  · rcases eq_or_lt_of_le h with rfl | h2
    · simp
    · rw [if_neg (not_le.mpr h2), max_eq_right h]

/-- Model of `f64::clamp(lo, hi)` on the rational model. -/
def clampQ (v lo hi : ℚ) : ℚ := minQ (maxQ v lo) hi

/-- Oracles for the transcendental `f64` operations used by the
program.  `cosDeg θ` models `θ.to_radians().cos()`, `sinDeg θ` models
`θ.to_radians().sin()`, `atan2Deg y x` models
`y.atan2(x).to_degrees()`, `sqrt` models `f64::sqrt`, and `parseF`
models `str::parse::<f64>`.  Claims about clamping and branch structure
are proved for arbitrary oracles; exact rational instances are used for
concrete evaluations. -/
structure FOps where
  cosDeg : ℚ → ℚ
  sinDeg : ℚ → ℚ
  atan2Deg : ℚ → ℚ → ℚ
  sqrt : ℚ → ℚ
  parseF : String → Option ℚ

/-- Exact rational square root model: agrees with `f64::sqrt` on every
perfect rational square whose square root is exactly representable
(in particular on small perfect-square integers, where IEEE-754 `sqrt`
is exact because it is correctly rounded).  Returns `0` on negative
inputs (where `f64::sqrt` returns NaN; never reached by the claims). -/
def ratSqrt (q : ℚ) : ℚ :=
  (Nat.sqrt q.num.toNat : ℚ) / (Nat.sqrt q.den : ℚ)

/-- Rust `str::trim_end` on the character level (whitespace stripped
from the right).  Structural recursion on the character list, so that
witnesses evaluate inside the kernel; the buffers involved are ASCII,
where this agrees with Rust's Unicode-whitespace trimming. -/
def listTrimRight (l : List Char) : List Char :=
  (l.reverse.dropWhile Char.isWhitespace).reverse

/-- Rust `str::trim` on the character level. -/
def listTrim (l : List Char) : List Char :=
  listTrimRight (l.dropWhile Char.isWhitespace)

/-- Model of `str::trim` on strings. -/
def strTrim (s : String) : String := String.mk (listTrim s.toList)

/-- Model of `str::trim_end` on strings. -/
def strTrimRight (s : String) : String := String.mk (listTrimRight s.toList)

/-- Model of `str::contains(char)`. -/
def strContains (s : String) (c : Char) : Bool := s.toList.contains c

/-- Rust `str::split(sep)` on the character level: splits at every
separator, keeping empty pieces (`"".split(sep)` is `[""]`). -/
def splitOnChar (sep : Char) : List Char → List (List Char)
  | [] => [[]]
  | c :: t =>
    let r := splitOnChar sep t
    if c = sep then [] :: r
    else
      match r with
      | [] => [[c]]
      | h :: t2 => (c :: h) :: t2

/-- Model of `str::split(sep)` on strings. -/
def strSplitOnChar (s : String) (sep : Char) : List String :=
  (splitOnChar sep s.toList).map String.mk

/-- Digit-list value in base 10. -/
def decDigitsVal (l : List Char) : ℕ :=
  l.foldl (fun acc c => 10 * acc + (c.toNat - '0'.toNat)) 0

/-- Exact rational model of `str::parse::<f64>` restricted to plain
decimal literals `[+-]? digits [. digits]` (the only shape the
coordinate-input buffer can contain, since its key handler admits only
digits, `.`, `,`, space and `-`).  `f64` parsing is exact on the
integer literals used by the concrete theorems below. -/
def ratParseF64 (s : String) : Option ℚ :=
  let cs := s.toList
  let signAndRest : ℚ × List Char :=
    match cs with
    | c :: t => if c = '-' then (-1, t) else if c = '+' then (1, t) else (1, cs)
    | [] => (1, cs)
  let sign := signAndRest.1
  let rest := signAndRest.2
  match splitOnChar '.' rest with
  | [ip] =>
    if ip ≠ [] ∧ ip.all Char.isDigit then
      some (sign * (decDigitsVal ip : ℚ))
    else none
  | [ip, fp] =>
    if (ip ≠ [] ∨ fp ≠ []) ∧ ip.all Char.isDigit ∧ fp.all Char.isDigit then
      some (sign * ((decDigitsVal ip : ℚ) +
        (decDigitsVal fp : ℚ) / (10 : ℚ) ^ fp.length))
    else none
  | _ => none

/-- Concrete oracle instance used by witnesses and counterexamples.
`sqrt` and `parseF` are the exact rational models above; the
trigonometric oracles are irrelevant to every concrete statement below
(which all use the Cartesian branch or quantities independent of them)
and are stubbed to `0`. -/
def ratOps : FOps :=
  { cosDeg := fun _ => 0
    sinDeg := fun _ => 0
    atan2Deg := fun _ _ => 0
    sqrt := ratSqrt
    parseF := ratParseF64 }

/-! ## Static keyboard grid (`App::new`) -/

/-- The three qwerty rows inserted into `keyboard_grid`. -/
def keyboard_rows : List String := ["qwertyuiop", "asdfghjkl;", "zxcvbnm,./"]

/-- Model of `keyboard_grid.get(&ch)`: the map built in `App::new`, sending a
character in row `row_idx`, column `col_idx` to
`(col_idx * 8, row_idx * 13)`.  No character occurs twice, so lookup
order is irrelevant. -/
def keyboard_grid (ch : Char) : Option (ℕ × ℕ) :=
  (keyboard_rows.enum.filterMap fun p =>
    (p.2.toList.findIdx? (fun c => c = ch)).map fun ci => (ci * 8, p.1 * 13)).head?

/-- Model of `char::is_ascii_hexdigit`. -/
def isAsciiHexdigit (c : Char) : Bool :=
  c.isDigit || ('a' ≤ c && c ≤ 'f') || ('A' ≤ c && c ≤ 'F')

/-- Model of `char::is_control` (Unicode `Cc`: U+0000–U+001F and U+007F–U+009F). -/
def isRustControl (c : Char) : Bool :=
  c.toNat ≤ 0x1F || (0x7F ≤ c.toNat && c.toNat ≤ 0x9F)

/-! ## Editor state (`struct App`) -/

structure App where
  mode : AppMode
  canvas : Canvas
  cursor_x : ℚ
  cursor_y : ℚ
  scroll_y : ℕ
  should_quit : Bool
  current_char : DrawChar
  current_color : RgbColor
  color_input : String
  continuous_draw : Bool
  last_cursor_x : ℚ
  last_cursor_y : ℚ
  coordinate_system : CoordinateSystem
  show_axes : Bool
  coordinate_input : String
  origin_x : ℚ
  origin_y : ℚ
  grid_snap : Bool
  text_buffer : String

/-- Model of `App::new()` (the `canvas_width`/`canvas_height`/`virtual_height`
fields are the constants above; `keyboard_grid` is the static map
above). -/
def App.new : App :=
  { mode := .Drawing
    canvas := fun _ _ => none
    cursor_x := 40
    cursor_y := 20
    scroll_y := 0
    should_quit := false
    current_char := .Point
    current_color := ⟨255, 105, 180⟩
    color_input := ""
    continuous_draw := false
    last_cursor_x := 40
    last_cursor_y := 20
    coordinate_system := .Cartesian
    show_axes := true
    coordinate_input := ""
    origin_x := 40
    origin_y := 20
    grid_snap := false
    text_buffer := "" }

/-! ## LineRasterizer (`draw_line_to_cursor`, Bresenham loop) -/

/-- The Bresenham loop body of `draw_line_to_cursor`, returning the
list of plotted grid points in order.  `fuel` bounds the iteration
count; `bresPoints` supplies enough fuel for the loop to reach its
`break` (proved below), so the `fuel = 0` base case is never hit from
the top-level entry point. -/
def bresAux (x1 y1 sx sy dx dy : ℤ) : ℕ → ℤ → ℤ → ℤ → List (ℤ × ℤ)
  | 0, _, _, _ => []
  | n + 1, x, y, err =>
    (x, y) ::
      (if x = x1 ∧ y = y1 then []
       else
         let e2 := 2 * err
         let x' := if dy ≤ e2 then x + sx else x
         let errA := if dy ≤ e2 then err + dy else err
         let y' := if e2 ≤ dx then y + sy else y
         let errB := if e2 ≤ dx then errA + dx else errA
         bresAux x1 y1 sx sy dx dy n x' y' errB)

/-- The complete sequence of cells plotted by the Bresenham loop of
`draw_line_to_cursor`, from `(x0, y0)` to `(x1, y1)`:
`dx = (x1 - x0).abs()`, `dy = -(y1 - y0).abs()`,
`sx = if x0 < x1 { 1 } else { -1 }`, `sy` likewise, initial error
`dx + dy`. -/
def bresPoints (x0 y0 x1 y1 : ℤ) : List (ℤ × ℤ) :=
  let dx := |x1 - x0|
  let dy := -|y1 - y0|
  let sx : ℤ := if x0 < x1 then 1 else -1
  let sy : ℤ := if y0 < y1 then 1 else -1
  bresAux x1 y1 sx sy dx dy ((x1 - x0).natAbs + (y1 - y0).natAbs + 1) x0 y0 (dx + dy)

/-- The in-bounds plot of one Bresenham cell:
`if x >= 0 && x < canvas_width && y >= 0 && y < virtual_height`
then `canvas[y][x] = Some(current_char)`. -/
def plotCell (glyph : DrawChar) (c : Canvas) (p : ℤ × ℤ) : Canvas :=
  if 0 ≤ p.1 ∧ p.1 < (canvas_width : ℤ) ∧ 0 ≤ p.2 ∧ p.2 < (virtual_height : ℤ) then
    canvasSet c p.2.toNat p.1.toNat (some glyph)
  else c

/-- Model of `draw_line_to_cursor`: rasterizes from
`(last_cursor_x as i32, last_cursor_y as i32)` to
`(cursor_x as i32, cursor_y as i32)`, writing the current glyph at
every in-bounds cell of the path. -/
def draw_line_to_cursor (app : App) : App :=
  let x0 := i32OfF64 app.last_cursor_x
  let y0 := i32OfF64 app.last_cursor_y
  let x1 := i32OfF64 app.cursor_x
  let y1 := i32OfF64 app.cursor_y
  { app with canvas := (bresPoints x0 y0 x1 y1).foldl (plotCell app.current_char) app.canvas }

/-! ## CursorController (`move_cursor`, scrolling, `draw_char`) -/

/-- Model of `scroll_up`: `scroll_y = scroll_y.saturating_sub(3)`. -/
def scroll_up (app : App) : App :=
  { app with scroll_y := app.scroll_y - 3 }

/-- Model of `scroll_down`:
`scroll_y = (scroll_y + 3).min(virtual_height.saturating_sub(canvas_height))`. -/
def scroll_down (app : App) : App :=
  { app with scroll_y := min (app.scroll_y + 3) (virtual_height - canvas_height) }

/-- Model of `move_cursor(dx, dy)`: remembers the previous position, applies the
delta, optionally rounds (grid snap), clamps `x` into
`[0, canvas_width - 1]` and `y` into `[0, virtual_height - 1]`,
auto-scrolls the viewport to keep the cursor row visible, and (when
continuous draw is on) rasterizes a line from the previous position. -/
def move_cursor (app : App) (dx dy : ℚ) : App :=
  let app0 := { app with last_cursor_x := app.cursor_x, last_cursor_y := app.cursor_y }
  let new_x0 := app0.cursor_x + dx
  let new_y0 := app0.cursor_y + dy
  let new_x := if app0.grid_snap then f64round new_x0 else new_x0
  let new_y := if app0.grid_snap then f64round new_y0 else new_y0
  let cx := minQ (maxQ new_x 0) ((canvas_width : ℚ) - 1)
  let cy := minQ (maxQ new_y 0) ((virtual_height : ℚ) - 1)
  let row := usizeOfF64 cy
  let visible_start := app0.scroll_y
  let visible_end := app0.scroll_y + canvas_height - 1
  let scroll' :=
    if row < visible_start then max row 0
    else if visible_end < row then
      min (row + 1 - canvas_height) (virtual_height - canvas_height)
    else app0.scroll_y
  let app1 := { app0 with cursor_x := cx, cursor_y := cy, scroll_y := scroll' }
  if app1.continuous_draw then draw_line_to_cursor app1 else app1

/-- Model of `draw_char`: writes the current glyph at the cursor cell if in
bounds. -/
def draw_char (app : App) : App :=
  let x := usizeOfF64 app.cursor_x
  let y := usizeOfF64 app.cursor_y
  if x < canvas_width ∧ y < virtual_height then
    { app with canvas := canvasSet app.canvas y x (some app.current_char) }
  else app

/-- Model of `clear_canvas`: resets every cell to `None`. -/
def clear_canvas (app : App) : App :=
  { app with canvas := fun _ _ => none }

/-! ## CoordinateTransform -/

/-- The numeric content of the status string built by
`get_current_coordinates` (the `format!` presentation — `{:.1}`
rounding, labels, degree sign — is not modelled; only the computed
quantities are). -/
inductive CoordDisplay where
  | cart (x y : ℚ)
  | polar (r θ : ℚ)
  | cyl (r θ z : ℚ)
  deriving DecidableEq, Repr

/-- Radial component shown by a `CoordDisplay` (0 for Cartesian). -/
def CoordDisplay.rho : CoordDisplay → ℚ
  | .cart _ _ => 0
  | .polar r _ => r
  | .cyl r _ _ => r

/-- Angular component shown by a `CoordDisplay` (0 for Cartesian). -/
def CoordDisplay.theta : CoordDisplay → ℚ
  | .cart _ _ => 0
  | .polar _ t => t
  | .cyl _ t _ => t

/-- Model of `get_current_coordinates`: computes the displayed quantities from
the live cursor position, with `rel_x = cursor_x - origin_x` and
`rel_y = origin_y - cursor_y` (screen Y flipped). -/
def get_current_coordinates (ops : FOps) (app : App) : CoordDisplay :=
  let rel_x := app.cursor_x - app.origin_x
  let rel_y := app.origin_y - app.cursor_y
  match app.coordinate_system with
  | .Cartesian => .cart rel_x rel_y
  | .Polar =>
    .polar (ops.sqrt (rel_x * rel_x + rel_y * rel_y)) (ops.atan2Deg rel_y rel_x)
  | .Cylindrical =>
    .cyl (ops.sqrt (rel_x * rel_x)) (ops.atan2Deg rel_y rel_x) (rel_y * 10)

/-- Model of `parse_and_move_to_coordinate`: splits the buffer on `,`, parses
the tokens for the active system, converts to a target position
relative to the origin (screen Y flipped), and clamps: `x` into
`[0, canvas_width - 1]` and `y` into `[0, canvas_height - 1]`.
Malformed input leaves the state unchanged. -/
def parse_and_move_to_coordinate (ops : FOps) (app : App) : App :=
  let parts := strSplitOnChar app.coordinate_input ','
  match app.coordinate_system with
  | .Cartesian =>
    if 2 ≤ parts.length then
      match ops.parseF (strTrim (parts.getD 0 "")), ops.parseF (strTrim (parts.getD 1 "")) with
      | some x, some y =>
        { app with
            cursor_x := clampQ (app.origin_x + x) 0 ((canvas_width : ℚ) - 1)
            cursor_y := clampQ (app.origin_y - y) 0 ((canvas_height : ℚ) - 1) }
      | _, _ => app
    else app
  | .Polar =>
    if 2 ≤ parts.length then
      match ops.parseF (strTrim (parts.getD 0 "")), ops.parseF (strTrim (parts.getD 1 "")) with
      | some r, some θ =>
        let x := r * ops.cosDeg θ
        let y := r * ops.sinDeg θ
        { app with
            cursor_x := clampQ (app.origin_x + x) 0 ((canvas_width : ℚ) - 1)
            cursor_y := clampQ (app.origin_y - y) 0 ((canvas_height : ℚ) - 1) }
      | _, _ => app
    else app
  | .Cylindrical =>
    if 3 ≤ parts.length then
      match ops.parseF (strTrim (parts.getD 0 "")), ops.parseF (strTrim (parts.getD 1 "")),
          ops.parseF (strTrim (parts.getD 2 "")) with
      | some r, some θ, some z =>
        let x := r * ops.cosDeg θ
        let y := r * ops.sinDeg θ + z * (1 / 10)
        { app with
            cursor_x := clampQ (app.origin_x + x) 0 ((canvas_width : ℚ) - 1)
            cursor_y := clampQ (app.origin_y - y) 0 ((canvas_height : ℚ) - 1) }
      | _, _, _ => app
    else app

/-- Whether the coordinate-input buffer parses successfully for the
active coordinate system (the guard conditions of
`parse_and_move_to_coordinate`'s success branches). -/
def coord_parse_ok (ops : FOps) (app : App) : Bool :=
  let parts := strSplitOnChar app.coordinate_input ','
  match app.coordinate_system with
  | .Cartesian =>
    2 ≤ parts.length && (ops.parseF (strTrim (parts.getD 0 ""))).isSome &&
      (ops.parseF (strTrim (parts.getD 1 ""))).isSome
  | .Polar =>
    2 ≤ parts.length && (ops.parseF (strTrim (parts.getD 0 ""))).isSome &&
      (ops.parseF (strTrim (parts.getD 1 ""))).isSome
  | .Cylindrical =>
    3 ≤ parts.length && (ops.parseF (strTrim (parts.getD 0 ""))).isSome &&
      (ops.parseF (strTrim (parts.getD 1 ""))).isSome &&
      (ops.parseF (strTrim (parts.getD 2 ""))).isSome

/-! ## Hex color parsing -/

/-- Model of `u8::from_str_radix(s, 16)` on a character slice: an optional
leading sign (`+`, or `-` which for an unsigned target only admits the
value 0), then at least one base-16 digit, with overflow above
`u8::MAX` rejected. -/
def u8_from_str_radix16 (cs : List Char) : Option ℕ :=
  let signed : Bool × List Char :=
    match cs with
    | c :: t => if c = '-' then (true, t) else if c = '+' then (false, t) else (false, cs)
    | [] => (false, cs)
  let digits := signed.2
  if digits = [] then none
  else if digits.all isAsciiHexdigit then
    let v : ℕ := digits.foldl (fun acc c =>
      16 * acc + (if c.isDigit then c.toNat - '0'.toNat
        else if 'a' ≤ c then c.toNat - 'a'.toNat + 10
        else c.toNat - 'A'.toNat + 10)) 0
    if signed.1 then (if v = 0 then some 0 else none)
    else if v ≤ 255 then some v else none
  else none

/-- Model of `parse_hex_color`: `None` unless the string has length 6, then the
three 2-character slices parsed as base-16 bytes.  (Rust slices by
bytes; the buffer this is applied to only ever holds ASCII hex digits,
where byte and character indexing agree.) -/
def parse_hex_color (hex : String) : Option RgbColor :=
  if hex.length ≠ 6 then none
  else
    match u8_from_str_radix16 (hex.toList.take 2),
        u8_from_str_radix16 ((hex.toList.drop 2).take 2),
        u8_from_str_radix16 ((hex.toList.drop 4).take 2) with
    | some r, some g, some b => some ⟨r, g, b⟩
    | _, _, _ => none

/-! ## EditorStateMachine: per-mode key handlers -/

/-- Model of `handle_drawing_keys`.  The `'s'` (save) and `'r'` (open PDF) keys
invoke external file/process side effects that do not touch editor
state; `'r'` additionally switches to `PdfRender` mode. -/
def handle_drawing_keys (app : App) (k : Key) : App :=
  match k with
  | .char c =>
    if c = 'q' then { app with should_quit := true }
    else if c = 'h' then move_cursor app (-1) 0
    else if c = 'j' then move_cursor app 0 1
    else if c = 'k' then move_cursor app 0 (-1)
    else if c = 'l' then move_cursor app 1 0
    else if c = 'f' then { app with mode := .Selection }
    else if c = ' ' then draw_char app
    else if c = '?' then { app with mode := .Settings }
    else if c = 'c' then clear_canvas app
    else if c = 's' then app
    else if c = 'x' then { app with mode := .ColorSelection }
    else if c = 'd' then { app with continuous_draw := !app.continuous_draw }
    else if c = 'a' then { app with show_axes := !app.show_axes }
    else if c = 'g' then { app with mode := .CoordinateInput }
    else if c = 'i' then { app with mode := .TypstInput }
    else if c = 'n' then { app with grid_snap := !app.grid_snap }
    else if c = '.' then { app with current_char := .Point }
    else if c = '-' then { app with current_char := .Horizontal }
    else if c = '|' then { app with current_char := .Vertical }
    else if c = '+' then { app with current_char := .Cross }
    else if c = '/' then { app with current_char := .DiagRight }
    else if c = '\\' then { app with current_char := .DiagLeft }
    else if c = '1' then { app with coordinate_system := .Cartesian }
    else if c = '2' then { app with coordinate_system := .Polar }
    else if c = '3' then { app with coordinate_system := .Cylindrical }
    else if c = 'o' then { app with origin_x := app.cursor_x, origin_y := app.cursor_y }
    else if c = 'J' then scroll_down app
    else if c = 'K' then scroll_up app
    else if c = 'r' then { app with mode := .PdfRender }
    else app
  | _ => app

/-- Model of `handle_selection_keys`: a mapped key jumps the cursor to the
grid position, clamped by `min` to the visible canvas dimensions. -/
def handle_selection_keys (app : App) (k : Key) : App :=
  match k with
  | .esc => { app with mode := .Drawing }
  | .char ch =>
    match keyboard_grid ch with
    | some (x, y) =>
      { app with
          cursor_x := minQ (x : ℚ) ((canvas_width : ℚ) - 1)
          cursor_y := minQ (y : ℚ) ((canvas_height : ℚ) - 1)
          mode := .Drawing }
    | none => app
  | _ => app

/-- Model of `handle_color_selection_keys`. -/
def handle_color_selection_keys (app : App) (k : Key) : App :=
  match k with
  | .esc => { app with mode := .Drawing, color_input := "" }
  | .enter =>
    let app1 :=
      match parse_hex_color app.color_input with
      | some color => { app with current_color := color }
      | none => app
    { app1 with mode := .Drawing, color_input := "" }
  | .backspace => { app with color_input := app.color_input.dropRight 1 }
  | .char ch =>
    if isAsciiHexdigit ch && app.color_input.length < 6 then
      { app with color_input := app.color_input.push ch.toUpper }
    else app
  | .other => app

/-- Model of `handle_coordinate_input_keys`. -/
def handle_coordinate_input_keys (ops : FOps) (app : App) (k : Key) : App :=
  match k with
  | .esc => { app with mode := .Drawing, coordinate_input := "" }
  | .enter =>
    let app1 := parse_and_move_to_coordinate ops app
    { app1 with mode := .Drawing, coordinate_input := "" }
  | .backspace => { app with coordinate_input := app.coordinate_input.dropRight 1 }
  | .char ch =>
    if (ch.isDigit || ch = '.' || ch = ',' || ch = ' ' || ch = '-') &&
        app.coordinate_input.length < 20 then
      { app with coordinate_input := app.coordinate_input.push ch }
    else app
  | .other => app

/-- The Enter branch of `handle_typst_input_keys`: places each buffered
character as a `Text` glyph left-to-right from the cursor column
(column clamped by `min` to the canvas width), then newline via
`move_cursor(0, 1)`, resets the column to the origin and returns to
drawing mode. -/
def typst_place_buffer (app : App) : Canvas :=
  app.text_buffer.toList.enum.foldl
    (fun c p =>
      let x := min (usizeOfF64 app.cursor_x + p.1) (canvas_width - 1)
      let y := usizeOfF64 app.cursor_y
      if x < canvas_width ∧ y < virtual_height then
        canvasSet c y x (some (.Text p.2))
      else c)
    app.canvas

/-- Model of `handle_typst_input_keys`. -/
def handle_typst_input_keys (app : App) (k : Key) : App :=
  match k with
  | .esc => { app with mode := .Drawing, text_buffer := "" }
  | .enter =>
    let app1 := { app with canvas := typst_place_buffer app }
    let app2 := move_cursor app1 0 1
    { app2 with cursor_x := app2.origin_x, text_buffer := "", mode := .Drawing }
  | .backspace =>
    if app.text_buffer ≠ "" then
      { app with text_buffer := app.text_buffer.dropRight 1 }
    else
      let app1 := move_cursor app (-1) 0
      let x := usizeOfF64 app1.cursor_x
      let y := usizeOfF64 app1.cursor_y
      if x < canvas_width ∧ y < virtual_height then
        { app1 with canvas := canvasSet app1.canvas y x none }
      else app1
  | .char ch =>
    if ch ≠ Char.ofNat 0 && !isRustControl ch then
      let b1 := app.text_buffer.push ch
      let b2 :=
        if ch = '(' then b1.push ')'
        else if ch = '[' then b1.push ']'
        else if ch = Char.ofNat 123 then b1.push (Char.ofNat 125)
        else if ch = '$' then b1.push '$'
        else if ch = Char.ofNat 34 then b1.push (Char.ofNat 34)
        else if ch = Char.ofNat 39 then b1.push (Char.ofNat 39)
        else b1
      { app with text_buffer := b2 }
    else app
  | .other => app

/-- Model of `handle_settings_keys` (`Esc` and `'?'` both leave the mode). -/
def handle_settings_keys (app : App) (k : Key) : App :=
  match k with
  | .esc => { app with mode := .Drawing }
  | .char c =>
    if c = '?' then { app with mode := .Drawing }
    else if c = 'a' then { app with show_axes := !app.show_axes }
    else if c = 'n' then { app with grid_snap := !app.grid_snap }
    else if c = 'd' then { app with continuous_draw := !app.continuous_draw }
    else if c = '1' then { app with coordinate_system := .Cartesian }
    else if c = '2' then { app with coordinate_system := .Polar }
    else if c = '3' then { app with coordinate_system := .Cylindrical }
    else app
  | _ => app

/-- Model of `handle_pdf_render_keys`. -/
def handle_pdf_render_keys (app : App) (k : Key) : App :=
  match k with
  | .esc => { app with mode := .Drawing }
  | .char c => if c = 'r' then { app with mode := .Drawing } else app
  | _ => app

/-- Model of `handle_key`: dispatch by current mode. -/
def handle_key (ops : FOps) (app : App) (k : Key) : App :=
  match app.mode with
  | .Drawing => handle_drawing_keys app k
  | .Selection => handle_selection_keys app k
  | .ColorSelection => handle_color_selection_keys app k
  | .CoordinateInput => handle_coordinate_input_keys ops app k
  | .TypstInput => handle_typst_input_keys app k
  | .Settings => handle_settings_keys app k
  | .PdfRender => handle_pdf_render_keys app k

/-! ## Exporter (`save_typst`, mixed mode) -/

/-- Whether any `Text` glyph exists anywhere in the grid (`has_text` in
`save_typst`), scanning the `virtual_height × canvas_width` extent of
the canvas vector. -/
def canvas_has_text (c : Canvas) : Bool :=
  (List.range virtual_height).any fun y =>
    (List.range canvas_width).any fun x =>
      match c y x with
      | some (.Text _) => true
      | _ => false

/-- The per-row extraction loop of `save_typst`'s mixed mode: builds the
row string (text glyphs as themselves, drawing glyphs as display
characters, empty cells as a space once text content has started) and
keeps the row only if it contained a `Text` glyph, right-trimmed. -/
def row_text_line (c : Canvas) (y : ℕ) : Option String :=
  let acc : String × Bool :=
    (List.range canvas_width).foldl
      (fun acc x =>
        match c y x with
        | some (.Text ch) => (acc.1.push ch, true)
        | some .Point => (acc.1.push '•', acc.2)
        | some .Horizontal => (acc.1.push '-', acc.2)
        | some .Vertical => (acc.1.push '|', acc.2)
        | some .Cross => (acc.1.push '+', acc.2)
        | some .DiagRight => (acc.1.push '/', acc.2)
        | some .DiagLeft => (acc.1.push '\\', acc.2)
        | none => (if acc.2 then acc.1.push ' ' else acc.1, acc.2))
      ("", false)
  if acc.2 then some (strTrimRight acc.1) else none

/-- Model of `text_lines`: the collected row strings of the mixed-mode export. -/
def text_lines (c : Canvas) : List String :=
  (List.range virtual_height).filterMap (row_text_line c)

/-- The paragraph-assembly and emission loop of `save_typst`'s mixed
mode, followed by the final flush, with the emission `if`-chains
inlined exactly as in the source (they appear twice there, once inside
the loop and once for the final paragraph).  Produces the list of
emitted lines; a blank line is written after every paragraph completed
inside the loop. -/
def mixed_emit_loop : List String → String → List String
  | [], paragraph =>
    if paragraph ≠ "" then
      [if strContains paragraph '$' then strTrim paragraph
       else if paragraph.toList.count '=' = 1 ∧
           (strContains paragraph '+' ∨ strContains paragraph '-' ∨
            strContains paragraph '*' ∨ strContains paragraph '/') then
         "$" ++ strTrim paragraph
       else strTrim paragraph]
    else []
  | line :: rest, paragraph =>
    if strTrim line = "" then
      if paragraph ≠ "" then
        (if strContains paragraph '$' then strTrim paragraph
         else if paragraph.toList.count '=' = 1 ∧
             (strContains paragraph '+' ∨ strContains paragraph '-' ∨
              strContains paragraph '*' ∨ strContains paragraph '/') then
           "$" ++ strTrim paragraph
         else strTrim paragraph) :: "" :: mixed_emit_loop rest ""
      else mixed_emit_loop rest paragraph
    else
      mixed_emit_loop rest
        (if paragraph ≠ "" then paragraph ++ " " ++ line else line)

/-- The mixed-mode body of `save_typst`: the lines written for the
paragraph section (after the fixed preamble), when at least one `Text`
glyph is present. -/
def save_typst_mixed (c : Canvas) : List String :=
  mixed_emit_loop (text_lines c) ""

/-! ### Specification-side reformulation of the mixed-mode exporter
(used to state the C4 refinement; written from the spec's words, to be
compared with the source-derived `mixed_emit_loop` above). -/

/-- Spec-side paragraph classification: a paragraph containing a
literal `$` is emitted as its trimmed text; else one with exactly one
`=` and at least one arithmetic operator is emitted with a `$`
prepended to its trimmed text; anything else as trimmed prose. -/
def classify_paragraph (p : String) : String :=
  if strContains p '$' then strTrim p
  else if p.toList.count '=' = 1 ∧
      (strContains p '+' ∨ strContains p '-' ∨ strContains p '*' ∨ strContains p '/') then
    "$" ++ strTrim p
  else strTrim p

/-- Spec-side paragraph assembly: splits the text lines at
blank-after-trim lines into the list of completed paragraphs (each the
space-join of its lines) and the final unterminated paragraph, if any.
The accumulator is the paragraph under construction. -/
def paragraphs_of : List String → String → List String × Option String
  | [], paragraph => ([], if paragraph ≠ "" then some paragraph else none)
  | line :: rest, paragraph =>
    if strTrim line = "" then
      if paragraph ≠ "" then
        let r := paragraphs_of rest ""
        (paragraph :: r.1, r.2)
      else paragraphs_of rest paragraph
    else
      paragraphs_of rest (if paragraph ≠ "" then paragraph ++ " " ++ line else line)

/-- Spec-side emission: every completed paragraph is classified and
followed by a blank separator line; the final unterminated paragraph,
if any, is classified and flushed without a separator. -/
def emit_from_paragraphs (r : List String × Option String) : List String :=
  (r.1.flatMap fun p => [classify_paragraph p, ""]) ++
    (match r.2 with
     | some p => [classify_paragraph p]
     | none => [])

/-- The claim's notion of a string wrapped as an inline math
expression: enclosed in `$` delimiters on both sides. -/
def enclosed_in_math_delimiters (s : String) : Bool :=
  s.toList.head? = some '$' && s.toList.getLast? = some '$' && 2 ≤ s.length

/-! ## Theorems: cursor motion (C2, C5, C7) -/

lemma move_cursor_cursor_x (app : App) (dx dy : ℚ) :
    (move_cursor app dx dy).cursor_x =
      minQ (maxQ (if app.grid_snap then f64round (app.cursor_x + dx) else app.cursor_x + dx) 0)
        ((canvas_width : ℚ) - 1) := by
  unfold move_cursor draw_line_to_cursor
  dsimp only
  split <;> rfl

lemma move_cursor_cursor_y (app : App) (dx dy : ℚ) :
    (move_cursor app dx dy).cursor_y =
      minQ (maxQ (if app.grid_snap then f64round (app.cursor_y + dy) else app.cursor_y + dy) 0)
        ((virtual_height : ℚ) - 1) := by
  unfold move_cursor draw_line_to_cursor
  dsimp only
  split <;> rfl

lemma move_cursor_origin_x (app : App) (dx dy : ℚ) :
    (move_cursor app dx dy).origin_x = app.origin_x := by
  unfold move_cursor draw_line_to_cursor
  dsimp only
  split <;> rfl

lemma move_cursor_origin_y (app : App) (dx dy : ℚ) :
    (move_cursor app dx dy).origin_y = app.origin_y := by
  unfold move_cursor draw_line_to_cursor
  dsimp only
  split <;> rfl

lemma move_cursor_scroll_y (app : App) (dx dy : ℚ) :
    (move_cursor app dx dy).scroll_y =
      (let row := usizeOfF64 ((move_cursor app dx dy).cursor_y)
       if row < app.scroll_y then max row 0
       else if app.scroll_y + canvas_height - 1 < row then
         min (row + 1 - canvas_height) (virtual_height - canvas_height)
       else app.scroll_y) := by
  rw [move_cursor_cursor_y]
  unfold move_cursor draw_line_to_cursor
  dsimp only
  split <;> rfl

lemma move_cursor_x_bounds (app : App) (dx dy : ℚ) :
    0 ≤ (move_cursor app dx dy).cursor_x ∧
      (move_cursor app dx dy).cursor_x ≤ (canvas_width : ℚ) - 1 := by
  rw [move_cursor_cursor_x, minQ_eq, maxQ_eq]
  exact ⟨le_min (le_max_right _ _) (by norm_num [canvas_width]), min_le_right _ _⟩

lemma move_cursor_y_bounds (app : App) (dx dy : ℚ) :
    0 ≤ (move_cursor app dx dy).cursor_y ∧
      (move_cursor app dx dy).cursor_y ≤ (virtual_height : ℚ) - 1 := by
  rw [move_cursor_cursor_y, minQ_eq, maxQ_eq]
  exact ⟨le_min (le_max_right _ _) (by norm_num [virtual_height]), min_le_right _ _⟩

/-- Fold a sequence of `move_cursor` calls from a start state. -/
def run_moves (start : App) (ds : List (ℚ × ℚ)) : App :=
  ds.foldl (fun a d => move_cursor a d.1 d.2) start

lemma run_moves_bounds (ds : List (ℚ × ℚ)) :
    ∀ start : App,
      (0 ≤ start.cursor_x ∧ start.cursor_x ≤ (canvas_width : ℚ) - 1 ∧
       0 ≤ start.cursor_y ∧ start.cursor_y ≤ (virtual_height : ℚ) - 1) →
      0 ≤ (run_moves start ds).cursor_x ∧
        (run_moves start ds).cursor_x ≤ (canvas_width : ℚ) - 1 ∧
        0 ≤ (run_moves start ds).cursor_y ∧
        (run_moves start ds).cursor_y ≤ (virtual_height : ℚ) - 1 := by
  induction ds with
  | nil => intro start h; exact h
  | cons d rest ih =>
    intro start _
    exact ih (move_cursor start d.1 d.2)
      ⟨(move_cursor_x_bounds start d.1 d.2).1, (move_cursor_x_bounds start d.1 d.2).2,
       (move_cursor_y_bounds start d.1 d.2).1, (move_cursor_y_bounds start d.1 d.2).2⟩

/-- C2: for every sequence of `move_cursor` calls with arbitrary
rational deltas, starting from the initial state, after each call
(i.e. after every prefix of the sequence) the cursor position lies
within `[0, canvas_width - 1] × [0, virtual_height - 1]`
(= `[0, 79] × [0, 199]`): the cursor is clamped, never wrapped. -/
theorem move_sequence_cursor_in_bounds (ds : List (ℚ × ℚ)) :
    0 ≤ (run_moves App.new ds).cursor_x ∧
      (run_moves App.new ds).cursor_x ≤ (canvas_width : ℚ) - 1 ∧
      0 ≤ (run_moves App.new ds).cursor_y ∧
      (run_moves App.new ds).cursor_y ≤ (virtual_height : ℚ) - 1 :=
  run_moves_bounds ds App.new (by norm_num [App.new, canvas_width, virtual_height])

lemma usizeOfF64_le_of_le (q : ℚ) (n : ℕ) (h : q ≤ (n : ℚ)) : usizeOfF64 q ≤ n := by
  unfold usizeOfF64
  have h1 : ⌊q⌋ ≤ (n : ℤ) := by
    have := Int.floor_mono h
    simpa using this
  omega

/-- C5: after any `move_cursor` call, the viewport satisfies
`scroll_y ≤ cursorRow ≤ scroll_y + canvas_height - 1`, where
`cursorRow` is the cursor's integer row (`cursor_y as usize`): the
cursor row is always inside the visible window after a move. -/
theorem autoscroll_keeps_cursor_visible (app : App) (dx dy : ℚ) :
    (move_cursor app dx dy).scroll_y ≤ usizeOfF64 (move_cursor app dx dy).cursor_y ∧
      usizeOfF64 (move_cursor app dx dy).cursor_y ≤
        (move_cursor app dx dy).scroll_y + canvas_height - 1 := by
  have hrow : usizeOfF64 (move_cursor app dx dy).cursor_y ≤ virtual_height - 1 := by
    apply usizeOfF64_le_of_le
    have := (move_cursor_y_bounds app dx dy).2
    have hv : ((virtual_height : ℚ) - 1) = ((virtual_height - 1 : ℕ) : ℚ) := by
      norm_num [virtual_height]
    rw [hv] at this
    exact this
  rw [move_cursor_scroll_y]
  dsimp only
  simp only [canvas_height, virtual_height] at *
  split_ifs with h1 h2 <;> omega

/-- C7: when grid snap is enabled, both cursor coordinates are integers
after every `move_cursor` call, from any (possibly fractional) starting
position: rounding happens before clamping and the clamp bounds are
integers. -/
theorem grid_snap_integer_cursor (app : App) (dx dy : ℚ)
    (h : app.grid_snap = true) :
    ∃ m n : ℤ, (move_cursor app dx dy).cursor_x = (m : ℚ) ∧
      (move_cursor app dx dy).cursor_y = (n : ℚ) := by
  obtain ⟨k, hk⟩ : ∃ k : ℤ, f64round (app.cursor_x + dx) = (k : ℚ) := by
    unfold f64round; split
    · exact ⟨_, rfl⟩
    · exact ⟨_, rfl⟩
  obtain ⟨l, hl⟩ : ∃ l : ℤ, f64round (app.cursor_y + dy) = (l : ℚ) := by
    unfold f64round; split
    · exact ⟨_, rfl⟩
    · exact ⟨_, rfl⟩
  refine ⟨min (max k 0) 79, min (max l 0) 199, ?_, ?_⟩
  · rw [move_cursor_cursor_x, minQ_eq, maxQ_eq, h, if_pos rfl, hk]
    push_cast
    norm_num [canvas_width]
  · rw [move_cursor_cursor_y, minQ_eq, maxQ_eq, h, if_pos rfl, hl]
    push_cast
    norm_num [virtual_height]

/-- Witness for C7 at a concrete state and fractional deltas. -/
theorem grid_snap_integer_cursor_witness :
    ({ App.new with grid_snap := true } : App).grid_snap = true ∧
      ∃ m n : ℤ,
        (move_cursor { App.new with grid_snap := true } (1/2) (1/3)).cursor_x = (m : ℚ) ∧
        (move_cursor { App.new with grid_snap := true } (1/2) (1/3)).cursor_y = (n : ℚ) :=
  ⟨rfl, grid_snap_integer_cursor { App.new with grid_snap := true } (1/2) (1/3) rfl⟩

/-! ## Theorems: cursor/origin invariant over the state machine (C10) -/

/-- The joint bounds invariant: cursor and origin both lie within
`[0, canvas_width - 1] × [0, virtual_height - 1]`. -/
def AppInv (app : App) : Prop :=
  0 ≤ app.cursor_x ∧ app.cursor_x ≤ (canvas_width : ℚ) - 1 ∧
  0 ≤ app.cursor_y ∧ app.cursor_y ≤ (virtual_height : ℚ) - 1 ∧
  0 ≤ app.origin_x ∧ app.origin_x ≤ (canvas_width : ℚ) - 1 ∧
  0 ≤ app.origin_y ∧ app.origin_y ≤ (virtual_height : ℚ) - 1

instance (app : App) : Decidable (AppInv app) := by
  unfold AppInv; infer_instance

lemma AppInv_move_cursor {app : App} (h : AppInv app) (dx dy : ℚ) :
    AppInv (move_cursor app dx dy) := by
  obtain ⟨-, -, -, -, h5, h6, h7, h8⟩ := h
  refine ⟨(move_cursor_x_bounds app dx dy).1, (move_cursor_x_bounds app dx dy).2,
    (move_cursor_y_bounds app dx dy).1, (move_cursor_y_bounds app dx dy).2, ?_, ?_, ?_, ?_⟩
  · rw [move_cursor_origin_x]; exact h5
  · rw [move_cursor_origin_x]; exact h6
  · rw [move_cursor_origin_y]; exact h7
  · rw [move_cursor_origin_y]; exact h8

lemma clampQ_bounds (v lo hi : ℚ) (h : lo ≤ hi) :
    lo ≤ clampQ v lo hi ∧ clampQ v lo hi ≤ hi := by
  unfold clampQ
  rw [minQ_eq, maxQ_eq]
  exact ⟨le_min (le_max_right _ _) h, min_le_right _ _⟩

lemma AppInv_parse_and_move {ops : FOps} {app : App} (h : AppInv app) :
    AppInv (parse_and_move_to_coordinate ops app) := by
  obtain ⟨h1, h2, h3, h4, h5, h6, h7, h8⟩ := h
  have hx : (0 : ℚ) ≤ (canvas_width : ℚ) - 1 := by norm_num [canvas_width]
  have hy : (0 : ℚ) ≤ (canvas_height : ℚ) - 1 := by norm_num [canvas_height]
  have hyv : ((canvas_height : ℚ) - 1) ≤ (virtual_height : ℚ) - 1 := by
    norm_num [canvas_height, virtual_height]
  unfold parse_and_move_to_coordinate
  rcases app.coordinate_system <;> dsimp only <;> split
  case Cartesian.isTrue =>
    split
    case h_1 x y hpx hpy =>
      exact ⟨(clampQ_bounds _ 0 _ hx).1, (clampQ_bounds _ 0 _ hx).2,
        (clampQ_bounds _ 0 _ hy).1, le_trans (clampQ_bounds _ 0 _ hy).2 hyv,
        h5, h6, h7, h8⟩
    case h_2 => exact ⟨h1, h2, h3, h4, h5, h6, h7, h8⟩
  case Cartesian.isFalse => exact ⟨h1, h2, h3, h4, h5, h6, h7, h8⟩
  case Polar.isTrue =>
    split
    case h_1 x y hpx hpy =>
      exact ⟨(clampQ_bounds _ 0 _ hx).1, (clampQ_bounds _ 0 _ hx).2,
        (clampQ_bounds _ 0 _ hy).1, le_trans (clampQ_bounds _ 0 _ hy).2 hyv,
        h5, h6, h7, h8⟩
    case h_2 => exact ⟨h1, h2, h3, h4, h5, h6, h7, h8⟩
  case Polar.isFalse => exact ⟨h1, h2, h3, h4, h5, h6, h7, h8⟩
  case Cylindrical.isTrue =>
    split
    case h_1 x y z hpx hpy hpz =>
      exact ⟨(clampQ_bounds _ 0 _ hx).1, (clampQ_bounds _ 0 _ hx).2,
        (clampQ_bounds _ 0 _ hy).1, le_trans (clampQ_bounds _ 0 _ hy).2 hyv,
        h5, h6, h7, h8⟩
    case h_2 => exact ⟨h1, h2, h3, h4, h5, h6, h7, h8⟩
  case Cylindrical.isFalse => exact ⟨h1, h2, h3, h4, h5, h6, h7, h8⟩

set_option maxHeartbeats 2000000 in
lemma AppInv_handle_drawing {app : App} (k : Key) (h : AppInv app) :
    AppInv (handle_drawing_keys app k) := by
  obtain ⟨h1, h2, h3, h4, h5, h6, h7, h8⟩ := h
  have hinv : AppInv app := ⟨h1, h2, h3, h4, h5, h6, h7, h8⟩
  cases k with
  | char c =>
    unfold handle_drawing_keys
    dsimp only
    by_cases hc1 : c = 'q'
    · rw [if_pos hc1]; exact ⟨h1, h2, h3, h4, h5, h6, h7, h8⟩
    rw [if_neg hc1]
    by_cases hc2 : c = 'h'
    · rw [if_pos hc2]; exact AppInv_move_cursor hinv _ _
    rw [if_neg hc2]
    by_cases hc3 : c = 'j'
    · rw [if_pos hc3]; exact AppInv_move_cursor hinv _ _
    rw [if_neg hc3]
    by_cases hc4 : c = 'k'
    · rw [if_pos hc4]; exact AppInv_move_cursor hinv _ _
    rw [if_neg hc4]
    by_cases hc5 : c = 'l'
    · rw [if_pos hc5]; exact AppInv_move_cursor hinv _ _
    rw [if_neg hc5]
    by_cases hc6 : c = 'f'
    · rw [if_pos hc6]; exact ⟨h1, h2, h3, h4, h5, h6, h7, h8⟩
    rw [if_neg hc6]
    by_cases hc7 : c = ' '
    · rw [if_pos hc7]
      unfold draw_char; dsimp only; split <;> exact ⟨h1, h2, h3, h4, h5, h6, h7, h8⟩
    rw [if_neg hc7]
    by_cases hc8 : c = '?'
    · rw [if_pos hc8]; exact ⟨h1, h2, h3, h4, h5, h6, h7, h8⟩
    rw [if_neg hc8]
    by_cases hc9 : c = 'c'
    · rw [if_pos hc9]; exact ⟨h1, h2, h3, h4, h5, h6, h7, h8⟩
    rw [if_neg hc9]
    by_cases hc10 : c = 's'
    · rw [if_pos hc10]; exact ⟨h1, h2, h3, h4, h5, h6, h7, h8⟩
    rw [if_neg hc10]
    by_cases hc11 : c = 'x'
    · rw [if_pos hc11]; exact ⟨h1, h2, h3, h4, h5, h6, h7, h8⟩
    rw [if_neg hc11]
    by_cases hc12 : c = 'd'
    · rw [if_pos hc12]; exact ⟨h1, h2, h3, h4, h5, h6, h7, h8⟩
    rw [if_neg hc12]
    by_cases hc13 : c = 'a'
    · rw [if_pos hc13]; exact ⟨h1, h2, h3, h4, h5, h6, h7, h8⟩
    rw [if_neg hc13]
    by_cases hc14 : c = 'g'
    · rw [if_pos hc14]; exact ⟨h1, h2, h3, h4, h5, h6, h7, h8⟩
    rw [if_neg hc14]
    by_cases hc15 : c = 'i'
    · rw [if_pos hc15]; exact ⟨h1, h2, h3, h4, h5, h6, h7, h8⟩
    rw [if_neg hc15]
    by_cases hc16 : c = 'n'
    · rw [if_pos hc16]; exact ⟨h1, h2, h3, h4, h5, h6, h7, h8⟩
    rw [if_neg hc16]
    by_cases hc17 : c = '.'
    · rw [if_pos hc17]; exact ⟨h1, h2, h3, h4, h5, h6, h7, h8⟩
    rw [if_neg hc17]
    by_cases hc18 : c = '-'
    · rw [if_pos hc18]; exact ⟨h1, h2, h3, h4, h5, h6, h7, h8⟩
    rw [if_neg hc18]
    by_cases hc19 : c = '|'
    · rw [if_pos hc19]; exact ⟨h1, h2, h3, h4, h5, h6, h7, h8⟩
    rw [if_neg hc19]
    by_cases hc20 : c = '+'
    · rw [if_pos hc20]; exact ⟨h1, h2, h3, h4, h5, h6, h7, h8⟩
    rw [if_neg hc20]
    by_cases hc21 : c = '/'
    · rw [if_pos hc21]; exact ⟨h1, h2, h3, h4, h5, h6, h7, h8⟩
    rw [if_neg hc21]
    by_cases hc22 : c = '\\'
    · rw [if_pos hc22]; exact ⟨h1, h2, h3, h4, h5, h6, h7, h8⟩
    rw [if_neg hc22]
    by_cases hc23 : c = '1'
    · rw [if_pos hc23]; exact ⟨h1, h2, h3, h4, h5, h6, h7, h8⟩
    rw [if_neg hc23]
    by_cases hc24 : c = '2'
    · rw [if_pos hc24]; exact ⟨h1, h2, h3, h4, h5, h6, h7, h8⟩
    rw [if_neg hc24]
    by_cases hc25 : c = '3'
    · rw [if_pos hc25]; exact ⟨h1, h2, h3, h4, h5, h6, h7, h8⟩
    rw [if_neg hc25]
    by_cases hc26 : c = 'o'
    · rw [if_pos hc26]; exact ⟨h1, h2, h3, h4, h1, h2, h3, h4⟩
    rw [if_neg hc26]
    by_cases hc27 : c = 'J'
    · rw [if_pos hc27]; exact ⟨h1, h2, h3, h4, h5, h6, h7, h8⟩
    rw [if_neg hc27]
    by_cases hc28 : c = 'K'
    · rw [if_pos hc28]; exact ⟨h1, h2, h3, h4, h5, h6, h7, h8⟩
    rw [if_neg hc28]
    by_cases hc29 : c = 'r'
    · rw [if_pos hc29]; exact ⟨h1, h2, h3, h4, h5, h6, h7, h8⟩
    rw [if_neg hc29]
    exact hinv
  | enter => exact hinv
  | esc => exact hinv
  | backspace => exact hinv
  | other => exact hinv

lemma AppInv_handle_selection {app : App} (k : Key) (h : AppInv app) :
    AppInv (handle_selection_keys app k) := by
  obtain ⟨h1, h2, h3, h4, h5, h6, h7, h8⟩ := h
  cases k with
  | char c =>
    unfold handle_selection_keys
    dsimp only
    rcases hk : keyboard_grid c with _ | ⟨x, y⟩
    · exact ⟨h1, h2, h3, h4, h5, h6, h7, h8⟩
    · simp only [minQ_eq]
      refine ⟨le_min (by positivity) (by norm_num [canvas_width]), min_le_right _ _,
        le_min (by positivity) (by norm_num [canvas_height]), ?_, h5, h6, h7, h8⟩
      exact le_trans (min_le_right _ _) (by norm_num [canvas_height, virtual_height])
  | esc => exact ⟨h1, h2, h3, h4, h5, h6, h7, h8⟩
  | enter => exact ⟨h1, h2, h3, h4, h5, h6, h7, h8⟩
  | backspace => exact ⟨h1, h2, h3, h4, h5, h6, h7, h8⟩
  | other => exact ⟨h1, h2, h3, h4, h5, h6, h7, h8⟩

lemma AppInv_handle_color {app : App} (k : Key) (h : AppInv app) :
    AppInv (handle_color_selection_keys app k) := by
  obtain ⟨h1, h2, h3, h4, h5, h6, h7, h8⟩ := h
  cases k with
  | char c =>
    unfold handle_color_selection_keys
    dsimp only
    split <;> exact ⟨h1, h2, h3, h4, h5, h6, h7, h8⟩
  | enter =>
    unfold handle_color_selection_keys
    dsimp only
    rcases hpc : parse_hex_color app.color_input with _ | color <;>
      exact ⟨h1, h2, h3, h4, h5, h6, h7, h8⟩
  | esc => exact ⟨h1, h2, h3, h4, h5, h6, h7, h8⟩
  | backspace => exact ⟨h1, h2, h3, h4, h5, h6, h7, h8⟩
  | other => exact ⟨h1, h2, h3, h4, h5, h6, h7, h8⟩

lemma AppInv_handle_coordinate {ops : FOps} {app : App} (k : Key) (h : AppInv app) :
    AppInv (handle_coordinate_input_keys ops app k) := by
  obtain ⟨h1, h2, h3, h4, h5, h6, h7, h8⟩ := h
  have hinv : AppInv app := ⟨h1, h2, h3, h4, h5, h6, h7, h8⟩
  cases k with
  | char c =>
    unfold handle_coordinate_input_keys
    dsimp only
    split <;> exact ⟨h1, h2, h3, h4, h5, h6, h7, h8⟩
  | enter =>
    unfold handle_coordinate_input_keys
    dsimp only
    obtain ⟨g1, g2, g3, g4, g5, g6, g7, g8⟩ := @AppInv_parse_and_move ops app hinv
    exact ⟨g1, g2, g3, g4, g5, g6, g7, g8⟩
  | esc => exact ⟨h1, h2, h3, h4, h5, h6, h7, h8⟩
  | backspace => exact ⟨h1, h2, h3, h4, h5, h6, h7, h8⟩
  | other => exact ⟨h1, h2, h3, h4, h5, h6, h7, h8⟩

lemma AppInv_handle_typst {app : App} (k : Key) (h : AppInv app) :
    AppInv (handle_typst_input_keys app k) := by
  obtain ⟨h1, h2, h3, h4, h5, h6, h7, h8⟩ := h
  have hinv : AppInv app := ⟨h1, h2, h3, h4, h5, h6, h7, h8⟩
  cases k with
  | char c =>
    unfold handle_typst_input_keys
    dsimp only
    split <;> exact ⟨h1, h2, h3, h4, h5, h6, h7, h8⟩
  | enter =>
    unfold handle_typst_input_keys
    dsimp only
    have hplace : AppInv { app with canvas := typst_place_buffer app } :=
      ⟨h1, h2, h3, h4, h5, h6, h7, h8⟩
    obtain ⟨g1, g2, g3, g4, g5, g6, g7, g8⟩ := AppInv_move_cursor hplace 0 1
    exact ⟨g5, g6, g3, g4, g5, g6, g7, g8⟩
  | esc => exact ⟨h1, h2, h3, h4, h5, h6, h7, h8⟩
  | backspace =>
    unfold handle_typst_input_keys
    dsimp only
    split
    · exact ⟨h1, h2, h3, h4, h5, h6, h7, h8⟩
    · obtain ⟨g1, g2, g3, g4, g5, g6, g7, g8⟩ := AppInv_move_cursor hinv (-1) 0
      split <;> exact ⟨g1, g2, g3, g4, g5, g6, g7, g8⟩
  | other => exact ⟨h1, h2, h3, h4, h5, h6, h7, h8⟩

lemma AppInv_handle_settings {app : App} (k : Key) (h : AppInv app) :
    AppInv (handle_settings_keys app k) := by
  obtain ⟨h1, h2, h3, h4, h5, h6, h7, h8⟩ := h
  cases k with
  | char c =>
    unfold handle_settings_keys
    dsimp only
    split_ifs <;> exact ⟨h1, h2, h3, h4, h5, h6, h7, h8⟩
  | esc => exact ⟨h1, h2, h3, h4, h5, h6, h7, h8⟩
  | enter => exact ⟨h1, h2, h3, h4, h5, h6, h7, h8⟩
  | backspace => exact ⟨h1, h2, h3, h4, h5, h6, h7, h8⟩
  | other => exact ⟨h1, h2, h3, h4, h5, h6, h7, h8⟩

lemma AppInv_handle_pdf {app : App} (k : Key) (h : AppInv app) :
    AppInv (handle_pdf_render_keys app k) := by
  obtain ⟨h1, h2, h3, h4, h5, h6, h7, h8⟩ := h
  cases k with
  | char c =>
    unfold handle_pdf_render_keys
    dsimp only
    split <;> exact ⟨h1, h2, h3, h4, h5, h6, h7, h8⟩
  | esc => exact ⟨h1, h2, h3, h4, h5, h6, h7, h8⟩
  | enter => exact ⟨h1, h2, h3, h4, h5, h6, h7, h8⟩
  | backspace => exact ⟨h1, h2, h3, h4, h5, h6, h7, h8⟩
  | other => exact ⟨h1, h2, h3, h4, h5, h6, h7, h8⟩

/-- C10: the origin always lies within
`[0, canvas_width - 1] × [0, virtual_height - 1]`: it holds at
`App::new` (origin `(40, 20)`) and is preserved — together with the
cursor bounds — by every key in every mode, because the origin is only
ever reassigned from the already-clamped cursor; in particular the
TypstInput Enter handler's unclamped `cursor_x := origin_x` assignment
preserves the cursor-bounds invariant. -/
theorem origin_cursor_invariant :
    AppInv App.new ∧
      ∀ (ops : FOps) (k : Key) (app : App), AppInv app → AppInv (handle_key ops app k) := by
  constructor
  · refine ⟨?_, ?_, ?_, ?_, ?_, ?_, ?_, ?_⟩ <;> norm_num [App.new, canvas_width, virtual_height]
  · intro ops k app h
    unfold handle_key
    rcases app.mode
    · exact AppInv_handle_drawing k h
    · exact AppInv_handle_selection k h
    · exact AppInv_handle_color k h
    · exact AppInv_handle_coordinate k h
    · exact AppInv_handle_typst k h
    · exact AppInv_handle_settings k h
    · exact AppInv_handle_pdf k h

/-- Witness for C10: the invariant is decidable and holds at the
initial state, and is preserved there e.g. for the origin-setting
key. -/
theorem origin_cursor_invariant_witness :
    AppInv App.new ∧ AppInv (handle_key ratOps App.new (.char 'o')) :=
  ⟨origin_cursor_invariant.1,
    origin_cursor_invariant.2 ratOps (.char 'o') App.new origin_cursor_invariant.1⟩

/-! ## Theorems: coordinate transform (C1, C3) -/

/-- C1 (amended): for every coordinate-input buffer that parses
successfully under the active coordinate system, the resulting cursor
position is clamped into `[0, canvas_width - 1] × [0, canvas_height - 1]`
(`x` into `[0, 79]`, `y` into `[0, 39]` — the *visible* height, not the
virtual height; a fortiori the result lies inside
`[0, canvas_width - 1] × [0, virtual_height - 1]`). -/
theorem coordinate_transform_clamped (ops : FOps) (app : App)
    (h : coord_parse_ok ops app = true) :
    0 ≤ (parse_and_move_to_coordinate ops app).cursor_x ∧
      (parse_and_move_to_coordinate ops app).cursor_x ≤ (canvas_width : ℚ) - 1 ∧
      0 ≤ (parse_and_move_to_coordinate ops app).cursor_y ∧
      (parse_and_move_to_coordinate ops app).cursor_y ≤ (canvas_height : ℚ) - 1 := by
  have hx : (0 : ℚ) ≤ (canvas_width : ℚ) - 1 := by norm_num [canvas_width]
  have hy : (0 : ℚ) ≤ (canvas_height : ℚ) - 1 := by norm_num [canvas_height]
  unfold coord_parse_ok at h
  unfold parse_and_move_to_coordinate
  cases hsys : app.coordinate_system <;> rw [hsys] at h <;> dsimp only at h ⊢
  case Cartesian =>
    simp only [Bool.and_eq_true, decide_eq_true_eq, Option.isSome_iff_exists] at h
    obtain ⟨⟨hlen, x, hpx⟩, y, hpy⟩ := h
    rw [if_pos hlen, hpx, hpy]
    exact ⟨(clampQ_bounds _ 0 _ hx).1, (clampQ_bounds _ 0 _ hx).2,
      (clampQ_bounds _ 0 _ hy).1, (clampQ_bounds _ 0 _ hy).2⟩
  case Polar =>
    simp only [Bool.and_eq_true, decide_eq_true_eq, Option.isSome_iff_exists] at h
    obtain ⟨⟨hlen, x, hpx⟩, y, hpy⟩ := h
    rw [if_pos hlen, hpx, hpy]
    exact ⟨(clampQ_bounds _ 0 _ hx).1, (clampQ_bounds _ 0 _ hx).2,
      (clampQ_bounds _ 0 _ hy).1, (clampQ_bounds _ 0 _ hy).2⟩
  case Cylindrical =>
    simp only [Bool.and_eq_true, decide_eq_true_eq, Option.isSome_iff_exists] at h
    obtain ⟨⟨⟨hlen, x, hpx⟩, y, hpy⟩, z, hpz⟩ := h
    rw [if_pos hlen, hpx, hpy, hpz]
    exact ⟨(clampQ_bounds _ 0 _ hx).1, (clampQ_bounds _ 0 _ hx).2,
      (clampQ_bounds _ 0 _ hy).1, (clampQ_bounds _ 0 _ hy).2⟩

/-- Concrete state for the C1 counterexample: Cartesian input `0,-30`
from the default origin `(40, 20)`. -/
def coordCEApp : App := { App.new with coordinate_input := "0,-30" }

/-- C1 counterexample: the claim as stated — result clamped into
`[0, canvas_width - 1] × [0, virtual_height - 1]` — is false: for the
Cartesian input `0,-30` the unclamped target row is `20 - (-30) = 50`,
which lies inside `[0, virtual_height - 1] = [0, 199]` and so would be
left at `50` by that clamp, but the code clamps the row with the
visible height bound `canvas_height - 1 = 39` and produces `39`. -/
theorem coordinate_transform_counterexample :
    coord_parse_ok ratOps coordCEApp = true ∧
    (parse_and_move_to_coordinate ratOps coordCEApp).cursor_y = 39 ∧
    clampQ (coordCEApp.origin_y - (-30)) 0 ((virtual_height : ℚ) - 1) = 50 ∧
    (39 : ℚ) ≠ 50 := by with_unfolding_all decide

/-- Witness for C1 at the Cartesian buffer `3,4`. -/
theorem coordinate_transform_clamped_witness :
    coord_parse_ok ratOps { App.new with coordinate_input := "3,4" } = true ∧
      (0 ≤ (parse_and_move_to_coordinate ratOps { App.new with coordinate_input := "3,4" }).cursor_x ∧
        (parse_and_move_to_coordinate ratOps { App.new with coordinate_input := "3,4" }).cursor_x ≤
          (canvas_width : ℚ) - 1 ∧
        0 ≤ (parse_and_move_to_coordinate ratOps { App.new with coordinate_input := "3,4" }).cursor_y ∧
        (parse_and_move_to_coordinate ratOps { App.new with coordinate_input := "3,4" }).cursor_y ≤
          (canvas_height : ℚ) - 1) :=
  ⟨by with_unfolding_all decide,
    coordinate_transform_clamped ratOps { App.new with coordinate_input := "3,4" }
      (by with_unfolding_all decide)⟩

lemma ratSqrt_sq (q : ℚ) (hq : 0 ≤ q) : ratSqrt (q * q) = q := by
  unfold ratSqrt
  rw [Rat.mul_self_num, Rat.mul_self_den]
  obtain ⟨n, hn⟩ := Int.eq_ofNat_of_zero_le (Rat.num_nonneg.mpr hq)
  rw [hn]
  have h1 : ((n : ℤ) * (n : ℤ)).toNat = n * n := by
    rw [← Nat.cast_mul, Int.toNat_natCast]
  rw [h1, Nat.sqrt_eq, Nat.sqrt_eq]
  have h2 : ((n : ℚ) : ℚ) = ((q.num : ℚ)) := by rw [hn]; norm_num
  calc (n : ℚ) / (q.den : ℚ) = (q.num : ℚ) / (q.den : ℚ) := by rw [← h2]
    _ = q := Rat.num_div_den q

/-- C3 (amended): `get_current_coordinates` computes, for any sqrt
oracle that is exact on perfect squares: in the Polar system the radial
component `sqrt(rel_x² + rel_y²)` — the Euclidean distance of the
cursor from the origin whenever that distance is rational — and the
angle `atan2(rel_y, rel_x)`; in the Cylindrical system the *same*
`atan2(rel_y, rel_x)` angle but the radial component
`sqrt(rel_x * rel_x) = |rel_x|`, which is *not* the Euclidean
distance, together with `z = 10 · rel_y`. -/
theorem current_coordinates_inverse_formulas (ops : FOps) (app : App)
    (hsqrt : ∀ q : ℚ, 0 ≤ q → ops.sqrt (q * q) = q) :
    (app.coordinate_system = .Polar →
      ∀ d : ℚ, 0 ≤ d →
        d * d = (app.cursor_x - app.origin_x) * (app.cursor_x - app.origin_x) +
          (app.origin_y - app.cursor_y) * (app.origin_y - app.cursor_y) →
        get_current_coordinates ops app =
          .polar d (ops.atan2Deg (app.origin_y - app.cursor_y)
            (app.cursor_x - app.origin_x))) ∧
    (app.coordinate_system = .Cylindrical →
      get_current_coordinates ops app =
        .cyl |app.cursor_x - app.origin_x|
          (ops.atan2Deg (app.origin_y - app.cursor_y) (app.cursor_x - app.origin_x))
          ((app.origin_y - app.cursor_y) * 10)) := by
  constructor
  · intro hsys d hd0 hdd
    unfold get_current_coordinates
    rw [hsys]
    dsimp only
    rw [← hdd, hsqrt d hd0]
  · intro hsys
    unfold get_current_coordinates
    rw [hsys]
    dsimp only
    have habs : (app.cursor_x - app.origin_x) * (app.cursor_x - app.origin_x) =
        |app.cursor_x - app.origin_x| * |app.cursor_x - app.origin_x| :=
      (abs_mul_abs_self _).symm
    rw [habs, hsqrt _ (abs_nonneg _)]

/-- Concrete state for the C3 counterexample: Cylindrical display with
the cursor at `(43, 16)` and the origin at `(40, 20)`, so
`rel_x = 3`, `rel_y = 4`. -/
def cylCEApp : App :=
  { App.new with coordinate_system := .Cylindrical, cursor_x := 43, cursor_y := 16 }

/-- C3 counterexample: in the Cylindrical system the displayed radial
component is `sqrt(rel_x * rel_x) = 3`, not the Euclidean distance
`sqrt(rel_x² + rel_y²) = 5` claimed for both systems (`f64::sqrt` is
exact at both perfect squares). -/
theorem cylindrical_r_not_distance :
    (get_current_coordinates ratOps cylCEApp).rho = 3 ∧
    ratSqrt ((cylCEApp.cursor_x - cylCEApp.origin_x) * (cylCEApp.cursor_x - cylCEApp.origin_x) +
      (cylCEApp.origin_y - cylCEApp.cursor_y) * (cylCEApp.origin_y - cylCEApp.cursor_y)) = 5 ∧
    (3 : ℚ) ≠ 5 := by with_unfolding_all decide

/-- Witness for C3 at `rel_x = 3`, `rel_y = 4`: Polar shows `r = 5`
(the distance), Cylindrical shows `ρ = 3 = |rel_x|`. -/
theorem current_coordinates_inverse_formulas_witness :
    get_current_coordinates ratOps
        { App.new with coordinate_system := .Polar, cursor_x := 43, cursor_y := 16 } =
      .polar 5 (ratOps.atan2Deg 4 3) ∧
    get_current_coordinates ratOps cylCEApp = .cyl 3 (ratOps.atan2Deg 4 3) 40 := by
  constructor
  · have h := (current_coordinates_inverse_formulas ratOps
        { App.new with coordinate_system := .Polar, cursor_x := 43, cursor_y := 16 }
        (fun q hq => ratSqrt_sq q hq)).1 rfl 5 (by norm_num) (by norm_num [App.new])
    simpa [App.new] using h
  · have h := (current_coordinates_inverse_formulas ratOps cylCEApp
        (fun q hq => ratSqrt_sq q hq)).2 rfl
    rw [h]
    have habs : |(43 : ℚ) - 40| = 3 := by
      rw [show ((43 : ℚ) - 40) = 3 by norm_num]
      exact abs_of_nonneg (by norm_num)
    norm_num [cylCEApp, App.new, habs]

/-! ## Theorems: hex color parsing (C8) -/

/-- C8: pressing Enter in ColorSelection mode parses the buffer as a
3-byte RGB hex triple: the buffer `"1A2B3C"` sets the current color to
`(26, 43, 60)`; for every buffer reachable in this mode (the key
handler only ever accumulates ASCII hex digits) that is not exactly 6
hex digits — i.e. whose length is not 6 — the parse fails silently and
the color is left unchanged; in both cases the mode returns to Drawing
and the buffer is cleared. -/
theorem color_enter_parses_hex :
    (∀ app : App, app.color_input = "1A2B3C" →
      handle_color_selection_keys app .enter =
        { app with current_color := ⟨26, 43, 60⟩, mode := .Drawing, color_input := "" }) ∧
    (∀ app : App, (∀ c ∈ app.color_input.toList, isAsciiHexdigit c = true) →
      app.color_input.length ≠ 6 →
      handle_color_selection_keys app .enter =
        { app with mode := .Drawing, color_input := "" }) := by
  constructor
  · intro app h
    unfold handle_color_selection_keys
    dsimp only
    rw [h]
    have hp : parse_hex_color "1A2B3C" = some ⟨26, 43, 60⟩ := by decide
    rw [hp]
  · intro app hhex hlen
    unfold handle_color_selection_keys
    dsimp only
    have hp : parse_hex_color app.color_input = none := by
      unfold parse_hex_color
      rw [if_pos hlen]
    rw [hp]

/-- Concrete ColorSelection states for the C8 witness. -/
def colorApp1 : App := { App.new with mode := .ColorSelection, color_input := "1A2B3C" }

/-- A ColorSelection state whose buffer is 2 hex digits. -/
def colorApp2 : App := { App.new with mode := .ColorSelection, color_input := "AB" }

/-- Witness for C8: the 6-digit buffer sets the color, the 2-digit
buffer leaves it unchanged. -/
theorem color_enter_parses_hex_witness :
    handle_color_selection_keys colorApp1 .enter =
      { colorApp1 with current_color := ⟨26, 43, 60⟩, mode := .Drawing, color_input := "" } ∧
    handle_color_selection_keys colorApp2 .enter =
      { colorApp2 with mode := .Drawing, color_input := "" } :=
  ⟨color_enter_parses_hex.1 colorApp1 rfl,
   color_enter_parses_hex.2 colorApp2 (by decide) (by decide)⟩

/-! ## Theorems: TypstInput Backspace frame effect (C9) -/

lemma canvasSet_same (c : Canvas) (y x : ℕ) (v : Option DrawChar) :
    canvasSet c y x v y x = v := by
  unfold canvasSet
  rw [if_pos ⟨rfl, rfl⟩]

lemma canvasSet_other (c : Canvas) (y x : ℕ) (v : Option DrawChar) (y' x' : ℕ)
    (h : ¬(y' = y ∧ x' = x)) : canvasSet c y x v y' x' = c y' x' := by
  unfold canvasSet
  rw [if_neg h]

lemma foldl_plotCell_keeps (glyph : DrawChar) (pts : List (ℤ × ℤ)) :
    ∀ (c : Canvas) (y x : ℕ), c y x = some glyph →
      (pts.foldl (plotCell glyph) c) y x = some glyph := by
  induction pts with
  | nil => intro c y x h; exact h
  | cons p rest ih =>
    intro c y x h
    rw [List.foldl_cons]
    apply ih
    unfold plotCell
    split
    · unfold canvasSet
      split
      · rfl
      · exact h
    · exact h

lemma foldl_plotCell_mem (glyph : DrawChar) (pts : List (ℤ × ℤ)) :
    ∀ (c : Canvas), ∀ p ∈ pts,
      (0 ≤ p.1 ∧ p.1 < (canvas_width : ℤ) ∧ 0 ≤ p.2 ∧ p.2 < (virtual_height : ℤ)) →
      (pts.foldl (plotCell glyph) c) p.2.toNat p.1.toNat = some glyph := by
  induction pts with
  | nil => intro c p hp _; exact absurd hp (List.not_mem_nil p)
  | cons q rest ih =>
    intro c p hp hb
    rcases List.mem_cons.mp hp with rfl | hp2
    · rw [List.foldl_cons]
      apply foldl_plotCell_keeps
      unfold plotCell
      rw [if_pos hb]
      exact canvasSet_same _ _ _ _
    · rw [List.foldl_cons]
      exact ih _ p hp2 hb

lemma move_cursor_canvas (app : App) (dx dy : ℚ) (h : app.continuous_draw = true) :
    (move_cursor app dx dy).canvas =
      (bresPoints (i32OfF64 app.cursor_x) (i32OfF64 app.cursor_y)
        (i32OfF64 (move_cursor app dx dy).cursor_x)
        (i32OfF64 (move_cursor app dx dy).cursor_y)).foldl
        (plotCell app.current_char) app.canvas := by
  rw [move_cursor_cursor_x, move_cursor_cursor_y]
  unfold move_cursor draw_line_to_cursor
  dsimp only
  rw [h]
  rfl

/-- C9: in TypstInput mode with an empty text buffer and
continuous-draw enabled, Backspace does not merely delete one cell: the
resulting state is `move_cursor (-1, 0)` — whose continuous-draw pass
has rasterized the current glyph into every in-bounds cell of the
Bresenham line from the previous cursor cell to the new cursor cell —
followed by clearing the cell at the new cursor position; so every
in-bounds line cell other than the new cursor cell now holds the
current glyph, and a delete keystroke writes glyphs onto the canvas. -/
theorem typst_backspace_rasterizes (ops : FOps) (app : App)
    (hmode : app.mode = .TypstInput) (hbuf : app.text_buffer = "")
    (hcd : app.continuous_draw = true) :
    (handle_key ops app .backspace).cursor_x = (move_cursor app (-1) 0).cursor_x ∧
    (handle_key ops app .backspace).cursor_y = (move_cursor app (-1) 0).cursor_y ∧
    (handle_key ops app .backspace).canvas
      (usizeOfF64 (move_cursor app (-1) 0).cursor_y)
      (usizeOfF64 (move_cursor app (-1) 0).cursor_x) = none ∧
    (∀ p ∈ bresPoints (i32OfF64 app.cursor_x) (i32OfF64 app.cursor_y)
        (i32OfF64 (move_cursor app (-1) 0).cursor_x)
        (i32OfF64 (move_cursor app (-1) 0).cursor_y),
      (0 ≤ p.1 ∧ p.1 < (canvas_width : ℤ) ∧ 0 ≤ p.2 ∧ p.2 < (virtual_height : ℤ)) →
      ¬(p.2.toNat = usizeOfF64 (move_cursor app (-1) 0).cursor_y ∧
        p.1.toNat = usizeOfF64 (move_cursor app (-1) 0).cursor_x) →
      (handle_key ops app .backspace).canvas p.2.toNat p.1.toNat =
        some app.current_char) := by
  have hxlt : usizeOfF64 (move_cursor app (-1) 0).cursor_x < canvas_width := by
    have h79 : usizeOfF64 (move_cursor app (-1) 0).cursor_x ≤ canvas_width - 1 := by
      apply usizeOfF64_le_of_le
      have := (move_cursor_x_bounds app (-1) 0).2
      have hc : ((canvas_width : ℚ) - 1) = ((canvas_width - 1 : ℕ) : ℚ) := by
        norm_num [canvas_width]
      rw [hc] at this
      exact this
    have : 0 < canvas_width := by norm_num [canvas_width]
    omega
  have hylt : usizeOfF64 (move_cursor app (-1) 0).cursor_y < virtual_height := by
    have h199 : usizeOfF64 (move_cursor app (-1) 0).cursor_y ≤ virtual_height - 1 := by
      apply usizeOfF64_le_of_le
      have := (move_cursor_y_bounds app (-1) 0).2
      have hc : ((virtual_height : ℚ) - 1) = ((virtual_height - 1 : ℕ) : ℚ) := by
        norm_num [virtual_height]
      rw [hc] at this
      exact this
    have : 0 < virtual_height := by norm_num [virtual_height]
    omega
  have hred : handle_key ops app .backspace =
      { move_cursor app (-1) 0 with
          canvas := canvasSet (move_cursor app (-1) 0).canvas
            (usizeOfF64 (move_cursor app (-1) 0).cursor_y)
            (usizeOfF64 (move_cursor app (-1) 0).cursor_x) none } := by
    unfold handle_key
    rw [hmode]
    dsimp only
    unfold handle_typst_input_keys
    dsimp only
    rw [hbuf]
    rw [if_neg (by simp)]
    rw [if_pos ⟨hxlt, hylt⟩]
  rw [hred]
  refine ⟨rfl, rfl, canvasSet_same _ _ _ _, ?_⟩
  intro p hp hb hne
  dsimp only
  rw [canvasSet_other _ _ _ _ _ _ hne]
  rw [move_cursor_canvas app (-1) 0 hcd]
  exact foldl_plotCell_mem app.current_char _ app.canvas p hp hb

/-- Concrete TypstInput state for the C9 witness: cursor at `(5, 3)`,
continuous draw on, empty buffer. -/
def typstWApp : App :=
  { App.new with mode := .TypstInput, continuous_draw := true, cursor_x := 5, cursor_y := 3 }

/-- Witness for C9: after Backspace the old cursor cell `(5, 3)` holds
the current glyph, the new cursor cell `(4, 3)` is empty, and the
cursor moved to `x = 4`. -/
theorem typst_backspace_rasterizes_witness :
    (handle_key ratOps typstWApp .backspace).canvas 3 5 = some DrawChar.Point ∧
    (handle_key ratOps typstWApp .backspace).canvas 3 4 = none ∧
    (handle_key ratOps typstWApp .backspace).cursor_x = 4 := by
  obtain ⟨hcx, hcy, hclear, hdraw⟩ := typst_backspace_rasterizes ratOps typstWApp rfl rfl rfl
  have husx : usizeOfF64 (move_cursor typstWApp (-1) 0).cursor_x = 4 := by
    with_unfolding_all decide
  have husy : usizeOfF64 (move_cursor typstWApp (-1) 0).cursor_y = 3 := by
    with_unfolding_all decide
  refine ⟨?_, ?_, ?_⟩
  · have hm : ((5 : ℤ), (3 : ℤ)) ∈ bresPoints (i32OfF64 typstWApp.cursor_x)
        (i32OfF64 typstWApp.cursor_y) (i32OfF64 (move_cursor typstWApp (-1) 0).cursor_x)
        (i32OfF64 (move_cursor typstWApp (-1) 0).cursor_y) := by
      with_unfolding_all decide
    have hb : (0 : ℤ) ≤ 5 ∧ (5 : ℤ) < (canvas_width : ℤ) ∧ (0 : ℤ) ≤ 3 ∧
        (3 : ℤ) < (virtual_height : ℤ) := by decide
    have hne : ¬(((5 : ℤ), (3 : ℤ)).2.toNat =
          usizeOfF64 (move_cursor typstWApp (-1) 0).cursor_y ∧
        ((5 : ℤ), (3 : ℤ)).1.toNat =
          usizeOfF64 (move_cursor typstWApp (-1) 0).cursor_x) := by
      rw [husx, husy]
      decide
    exact hdraw ((5 : ℤ), (3 : ℤ)) hm hb hne
  · rw [← husy, ← husx]
    exact hclear
  · rw [hcx]
    with_unfolding_all decide

/-! ## Theorems: Bresenham rasterizer (C6) -/

lemma getLast?_cons_some {α : Type} (a z : α) (l : List α) (h : l.getLast? = some z) :
    (a :: l).getLast? = some z := by
  cases l with
  | nil => simp at h
  | cons b t => rw [List.getLast?_cons_cons]; exact h

lemma bresAux_getLast (x1 y1 sx sy a b : ℤ) (ha : 0 ≤ a) (hb : 0 ≤ b)
    (hsx : sx = 1 ∨ sx = -1) (hsy : sy = 1 ∨ sy = -1) :
    ∀ (n : ℕ) (p q : ℤ), 0 ≤ p → p ≤ a → 0 ≤ q → q ≤ b →
      (a - p) + (b - q) < (n : ℤ) →
      (bresAux x1 y1 sx sy a (-b) n (x1 - sx * (a - p)) (y1 - sy * (b - q))
        (a - b - p * b + q * a)).getLast? = some (x1, y1) := by
  intro n
  induction n with
  | zero =>
    intro p q hp0 hpa hq0 hqb hfuel
    exfalso
    push_cast at hfuel
    linarith
  | succ n ih =>
    intro p q hp0 hpa hq0 hqb hfuel
    have hsx0 : sx ≠ 0 := by rcases hsx with h | h <;> rw [h] <;> decide
    have hsy0 : sy ≠ 0 := by rcases hsy with h | h <;> rw [h] <;> decide
    push_cast at hfuel
    by_cases hend : p = a ∧ q = b
    · obtain ⟨hpA, hqB⟩ := hend
      have hx : x1 - sx * (a - p) = x1 := by rw [hpA]; ring
      have hy : y1 - sy * (b - q) = y1 := by rw [hqB]; ring
      rw [hx, hy]
      simp only [bresAux]
      simp
    · have hxneq : ¬(x1 - sx * (a - p) = x1 ∧ y1 - sy * (b - q) = y1) := by
        rintro ⟨hx, hy⟩
        apply hend
        constructor
        · have h0 : sx * (a - p) = 0 := by linarith
          rcases mul_eq_zero.mp h0 with h | h
          · exact absurd h hsx0
          · linarith
        · have h0 : sy * (b - q) = 0 := by linarith
          rcases mul_eq_zero.mp h0 with h | h
          · exact absurd h hsy0
          · linarith
      simp only [bresAux]
      rw [if_neg hxneq]
      by_cases hX : (-b) ≤ 2 * (a - b - p * b + q * a)
      · by_cases hY : 2 * (a - b - p * b + q * a) ≤ a
        · -- both step
          have hpa' : p < a := by
            rcases eq_or_lt_of_le hpa with heq | hlt
            · exfalso
              have hq_lt : q < b :=
                lt_of_le_of_ne hqb (fun hqq => hend ⟨heq, hqq⟩)
              nlinarith [heq, hX, mul_nonneg ha (by linarith : (0:ℤ) ≤ b - q - 1)]
            · exact hlt
          have hqb' : q < b := by
            rcases eq_or_lt_of_le hqb with heq | hlt
            · exfalso
              have hp_lt : p < a :=
                lt_of_le_of_ne hpa (fun hpp => hend ⟨hpp, heq⟩)
              nlinarith [heq, hY, mul_nonneg (by linarith : (0:ℤ) ≤ a - p - 1)
                (by linarith : (0:ℤ) ≤ 2 * b + 1)]
            · exact hlt
          rw [if_pos hX, if_pos hX, if_pos hY, if_pos hY]
          apply getLast?_cons_some
          have e1 : x1 - sx * (a - p) + sx = x1 - sx * (a - (p + 1)) := by ring
          have e2 : y1 - sy * (b - q) + sy = y1 - sy * (b - (q + 1)) := by ring
          have e3 : a - b - p * b + q * a + -b + a = a - b - (p + 1) * b + (q + 1) * a := by
            ring
          rw [e1, e2, e3]
          exact ih (p + 1) (q + 1) (by linarith) (by linarith) (by linarith) (by linarith)
            (by linarith)
        · -- x only
          have hpa' : p < a := by
            rcases eq_or_lt_of_le hpa with heq | hlt
            · exfalso
              have hq_lt : q < b :=
                lt_of_le_of_ne hqb (fun hqq => hend ⟨heq, hqq⟩)
              nlinarith [heq, hX, mul_nonneg ha (by linarith : (0:ℤ) ≤ b - q - 1)]
            · exact hlt
          rw [if_pos hX, if_pos hX, if_neg hY, if_neg hY]
          apply getLast?_cons_some
          have e1 : x1 - sx * (a - p) + sx = x1 - sx * (a - (p + 1)) := by ring
          have e3 : a - b - p * b + q * a + -b = a - b - (p + 1) * b + q * a := by ring
          rw [e1, e3]
          exact ih (p + 1) q (by linarith) (by linarith) hq0 hqb (by linarith)
      · by_cases hY : 2 * (a - b - p * b + q * a) ≤ a
        · -- y only
          have hqb' : q < b := by
            rcases eq_or_lt_of_le hqb with heq | hlt
            · exfalso
              have hp_lt : p < a :=
                lt_of_le_of_ne hpa (fun hpp => hend ⟨hpp, heq⟩)
              nlinarith [heq, hY, mul_nonneg (by linarith : (0:ℤ) ≤ a - p - 1)
                (by linarith : (0:ℤ) ≤ 2 * b + 1)]
            · exact hlt
          rw [if_neg hX, if_neg hX, if_pos hY, if_pos hY]
          apply getLast?_cons_some
          have e2 : y1 - sy * (b - q) + sy = y1 - sy * (b - (q + 1)) := by ring
          have e3 : a - b - p * b + q * a + a = a - b - p * b + (q + 1) * a := by ring
          rw [e2, e3]
          exact ih p (q + 1) hp0 hpa (by linarith) (by linarith) (by linarith)
        · exfalso
          push_neg at hX hY
          linarith

lemma mem_of_head?_some {α : Type} {l : List α} {z : α} (h : l.head? = some z) : z ∈ l := by
  cases l with
  | nil => simp at h
  | cons a t =>
    simp only [List.head?_cons, Option.some_inj] at h
    rw [← h]
    exact List.mem_cons_self a t

lemma mem_of_getLast?_some {α : Type} {l : List α} {z : α} (h : l.getLast? = some z) :
    z ∈ l := by
  induction l with
  | nil => simp at h
  | cons a t ih =>
    cases t with
    | nil =>
      simp only [List.getLast?_singleton, Option.some_inj] at h
      rw [← h]
      exact List.mem_cons_self a []
    | cons b t2 =>
      rw [List.getLast?_cons_cons] at h
      exact List.mem_cons_of_mem a (ih h)

/-- C6 (amended): the Bresenham traversal of `draw_line_to_cursor`
starts at `A` and ends at `B`, so both endpoints are always among the
visited cells; the visited cell *sets* of the two directions, however,
can differ (tie-breaking on the combined diagonal step is not
direction-symmetric), so only the endpoint part of the symmetry claim
holds. -/
theorem bresPoints_endpoints (x0 y0 x1 y1 : ℤ) :
    (bresPoints x0 y0 x1 y1).head? = some (x0, y0) ∧
    (bresPoints x0 y0 x1 y1).getLast? = some (x1, y1) ∧
    (x0, y0) ∈ bresPoints x0 y0 x1 y1 ∧ (x1, y1) ∈ bresPoints x0 y0 x1 y1 := by
  have hhead : (bresPoints x0 y0 x1 y1).head? = some (x0, y0) := by
    unfold bresPoints
    simp only [bresAux]
    rfl
  have hlast : (bresPoints x0 y0 x1 y1).getLast? = some (x1, y1) := by
    unfold bresPoints
    dsimp only
    have ha : (0:ℤ) ≤ |x1 - x0| := abs_nonneg _
    have hb : (0:ℤ) ≤ |y1 - y0| := abs_nonneg _
    have hsx : (if x0 < x1 then (1:ℤ) else -1) = 1 ∨
        (if x0 < x1 then (1:ℤ) else -1) = -1 := by
      by_cases h : x0 < x1
      · left; rw [if_pos h]
      · right; rw [if_neg h]
    have hsy : (if y0 < y1 then (1:ℤ) else -1) = 1 ∨
        (if y0 < y1 then (1:ℤ) else -1) = -1 := by
      by_cases h : y0 < y1
      · left; rw [if_pos h]
      · right; rw [if_neg h]
    have hfuel : (|x1 - x0| - 0) + (|y1 - y0| - 0) <
        (((x1 - x0).natAbs + (y1 - y0).natAbs + 1 : ℕ) : ℤ) := by
      rw [Int.abs_eq_natAbs, Int.abs_eq_natAbs]
      push_cast
      linarith
    have h0 := bresAux_getLast x1 y1 (if x0 < x1 then (1:ℤ) else -1)
      (if y0 < y1 then (1:ℤ) else -1) (|x1 - x0|) (|y1 - y0|) ha hb hsx hsy
      ((x1 - x0).natAbs + (y1 - y0).natAbs + 1) 0 0 le_rfl ha le_rfl hb hfuel
    have hstartx : x1 - (if x0 < x1 then (1:ℤ) else -1) * (|x1 - x0| - 0) = x0 := by
      by_cases h : x0 < x1
      · rw [if_pos h, abs_of_pos (by linarith : (0:ℤ) < x1 - x0)]; ring
      · rw [if_neg h, abs_of_nonpos (by linarith : x1 - x0 ≤ 0)]; ring
    have hstarty : y1 - (if y0 < y1 then (1:ℤ) else -1) * (|y1 - y0| - 0) = y0 := by
      by_cases h : y0 < y1
      · rw [if_pos h, abs_of_pos (by linarith : (0:ℤ) < y1 - y0)]; ring
      · rw [if_neg h, abs_of_nonpos (by linarith : y1 - y0 ≤ 0)]; ring
    have herr : |x1 - x0| - |y1 - y0| - 0 * |y1 - y0| + 0 * |x1 - x0| =
        |x1 - x0| + -|y1 - y0| := by ring
    rw [hstartx, hstarty, herr] at h0
    exact h0
  exact ⟨hhead, hlast, mem_of_head?_some hhead, mem_of_getLast?_some hlast⟩


/-- C6 counterexample: rasterizing `(0,0) → (2,1)` visits
`(0,0), (1,1), (2,1)` while `(2,1) → (0,0)` visits
`(2,1), (1,0), (0,0)`: the cell `(1,1)` is visited in one direction
only, so the visited sets are not equal and the claimed
reversed-order equality fails. -/
theorem bresPoints_not_symmetric :
    bresPoints 0 0 2 1 = [(0, 0), (1, 1), (2, 1)] ∧
    bresPoints 2 1 0 0 = [(2, 1), (1, 0), (0, 0)] ∧
    ((1, 1) : ℤ × ℤ) ∈ bresPoints 0 0 2 1 ∧
    ((1, 1) : ℤ × ℤ) ∉ bresPoints 2 1 0 0 ∧
    bresPoints 0 0 2 1 ≠ (bresPoints 2 1 0 0).reverse := by
  with_unfolding_all decide

/-! ## Theorems: mixed-mode export classification (C4) -/

lemma mixed_emit_loop_eq : ∀ (ls : List String) (para : String),
    mixed_emit_loop ls para = emit_from_paragraphs (paragraphs_of ls para) := by
  intro ls
  induction ls with
  | nil =>
    intro para
    unfold mixed_emit_loop paragraphs_of
    by_cases h : para ≠ ""
    · rw [if_pos h, if_pos h]
      rfl
    · rw [if_neg h, if_neg h]
      rfl
  | cons line rest ih =>
    intro para
    unfold mixed_emit_loop paragraphs_of
    by_cases hblank : strTrim line = ""
    · rw [if_pos hblank, if_pos hblank]
      by_cases hpar : para ≠ ""
      · rw [if_pos hpar, if_pos hpar]
        rw [ih ""]
        rfl
      · rw [if_neg hpar, if_neg hpar]
        exact ih para
    · rw [if_neg hblank, if_neg hblank]
      exact ih _

/-- C4 (amended): the mixed-mode export emits, for every completed
paragraph and for the final unterminated paragraph alike, exactly the
spec-side classification `classify_paragraph`: a paragraph containing a
literal `$` as its trimmed text (verbatim up to trimming); a paragraph
with exactly one `=` and at least one of `+ - * /` as a *single
leading* `$` delimiter prepended to its trimmed text (the math
delimiter is opened but never closed); any other paragraph as trimmed
prose — each in-loop paragraph followed by a blank separator line, the
final flush without one. -/
theorem mixed_export_classification (c : Canvas) :
    save_typst_mixed c = emit_from_paragraphs (paragraphs_of (text_lines c) "") :=
  mixed_emit_loop_eq (text_lines c) ""

/-- A canvas holding the single text row `a=b+c` (math-classified:
one `=`, a `+`, no `$`). -/
def mathCEcanvas : Canvas := fun y x =>
  if y = 0 ∧ x = 0 then some (.Text 'a')
  else if y = 0 ∧ x = 1 then some (.Text '=')
  else if y = 0 ∧ x = 2 then some (.Text 'b')
  else if y = 0 ∧ x = 3 then some (.Text '+')
  else if y = 0 ∧ x = 4 then some (.Text 'c')
  else none

/-- C4 counterexample: the math-classified paragraph `a=b+c` is
emitted as `$a=b+c` — a single opening `$` with no closing delimiter —
so the claimed "wrapped as an inline math expression (enclosed in math
delimiters)" is false. -/
theorem math_paragraph_not_enclosed :
    canvas_has_text mathCEcanvas = true ∧
    text_lines mathCEcanvas = ["a=b+c"] ∧
    paragraphs_of (text_lines mathCEcanvas) "" = ([], some "a=b+c") ∧
    ("a=b+c".toList.count '=' = 1 ∧ strContains "a=b+c" '+' = true ∧
      strContains "a=b+c" '$' = false) ∧
    save_typst_mixed mathCEcanvas = ["$a=b+c"] ∧
    enclosed_in_math_delimiters "$a=b+c" = false := by decide
